import Mathlib

/-!
Verification of the MK404 peripheral emulation core: the TMC2130
stepper-driver peripheral and the ADC_Buttons peripheral.

The repository provides the class declarations and in-class member
initializers in src/parts/components/TMC2130.h and
src/parts/components/ADC_Buttons.h; the bodies of the signal handlers
live in .cpp translation units that are not part of the source subset,
so those bodies are modelled from the specification (each such
definition is marked in its doc comment).  Machine integers are
modelled as Nat/Int with explicit truncation where the declared C
types demand it; the single-precision float position is modelled as an
exact rational.
-/

set_option maxRecDepth 8000

namespace MK404

/-- Axis configuration, translated from `TMC2130::TMC2130_cfg_t`
(src/parts/components/TMC2130.h, lines 54-61).  `fStartPos` is a C
float, modelled as an exact rational. -/
structure TMC2130_cfg_t where
  bInverted : Bool
  uiStepsPerMM : Nat
  iMaxMM : Int
  fStartPos : Rat
  bHasNoEndStops : Bool
deriving DecidableEq

/-- The default configuration, from the `TMC2130_cfg_t()` constructor in
the header (line 55): not inverted, 100 steps/mm, 200 mm max travel,
start position 10.0 mm, end-stops present. -/
def TMC2130_cfg_t.default : TMC2130_cfg_t :=
  { bInverted := false, uiStepsPerMM := 100, iMaxMM := 200,
    fStartPos := 10, bHasNoEndStops := false }

/-- The TMC2130 peripheral state.  Field names and initial values follow
the member declarations of src/parts/components/TMC2130.h (lines
108-212).  The 40-bit SPI command buffers (`tmc2130_cmd_t`) are modelled
as natural numbers below `2 ^ 40` together with a count of the bytes
accumulated in the current transaction, and the 128-word register file
(`tmc2130_registers_t.raw`) as a list of 32-bit words. -/
structure TMC2130 where
  m_bDir : Bool
  m_bEnable : Bool
  m_bConfigured : Bool
  cfg : TMC2130_cfg_t
  m_iCurStep : Int
  m_iMaxPos : Int
  m_fCurPos : Rat
  m_csel : Bool
  m_cmdIn : Nat
  m_cmdCount : Nat
  m_cmdOut : Nat
  m_regs : List Nat
  m_bStall : Bool
  m_armToken : Nat
  m_diagOut : Bool
deriving DecidableEq

/-- A freshly constructed TMC2130, per the in-class member initializers
of the header: `m_bDir = 0`, `m_bEnable = true`, `m_bConfigured = false`,
`m_iCurStep = 0`, `m_iMaxPos = 0`, `m_fCurPos = 0`, zeroed command
buffers, a zeroed register file, `m_bStall = false`, and the default
configuration. -/
def TMC2130.construct : TMC2130 :=
  { m_bDir := false, m_bEnable := true, m_bConfigured := false,
    cfg := TMC2130_cfg_t.default, m_iCurStep := 0, m_iMaxPos := 0,
    m_fCurPos := 0, m_csel := false, m_cmdIn := 0, m_cmdCount := 0,
    m_cmdOut := 0, m_regs := List.replicate 128 0, m_bStall := false,
    m_armToken := 0, m_diagOut := false }

/-- Modelled from the spec: the body of `TMC2130::StepToPos` is not
under src/ (header line 215 declares it).  Spec 4.2 numeric semantics:
conversion is `position = stepCount / stepsPerMM`, with inversion
flipping the sign. -/
def TMC2130.StepToPos (c : TMC2130_cfg_t) (step : Int) : Rat :=
  let p : Rat := (step : Rat) / (c.uiStepsPerMM : Rat)
  if c.bInverted then -p else p

/-- Modelled from the spec: the body of `TMC2130::PosToStep` is not
under src/ (header line 216 declares it).  Spec 4.2 numeric semantics:
position-to-step is the inverse of step-to-position, rounded toward the
nearest integer step, i.e. `⌊pos * stepsPerMM + 1/2⌋` with inversion
flipping the sign first.  Written over the numerator and denominator of
the exact rational position: for a position `n / d` (with `d > 0`) the
result is `⌊(n * stepsPerMM) / d + 1/2⌋ = (2 * n * stepsPerMM + d).fdiv
(2 * d)`, floor division by the positive `2 * d`. -/
def TMC2130.PosToStep (c : TMC2130_cfg_t) (pos : Rat) : Int :=
  let n : Int := if c.bInverted then -pos.num else pos.num
  (2 * n * (c.uiStepsPerMM : Int) + (pos.den : Int)).fdiv (2 * (pos.den : Int))

/-- Modelled from the spec: the body of `TMC2130::SetConfig` is not
under src/.  Spec 4.2: the configuration is applied atomically before
first use; spec 3 (Motor/Axis State): the axis travel bound and current
step are derived from the configured max travel and start position via
position-to-step conversion (spec 8 scenarios: startPos 10.0 maps to
step 1000, maxSteps = 200 * 100 = 20000). -/
def TMC2130.SetConfig (s : TMC2130) (c : TMC2130_cfg_t) : TMC2130 :=
  let st := TMC2130.PosToStep c c.fStartPos
  { s with cfg := c, m_bConfigured := true,
           m_iMaxPos := TMC2130.PosToStep c (c.iMaxMM : Rat),
           m_iCurStep := st,
           m_fCurPos := TMC2130.StepToPos c st }

/-- Modelled from the spec: the body of `TMC2130::OnStepIn` is not under
src/ (header line 95 declares it).  Spec 4.2: on a qualifying edge, if
enabled, the step counter is incremented or decremented according to
the latched direction, clamped to `[0, maxPos]` when end-stops are
active, the floating-point position is recomputed, and the standstill
timer is re-armed (modelled by bumping `m_armToken`); spec 8: the stall
bit remains set only until the next qualifying step edge, so a
qualifying edge clears it.  One application models the delivery of one
qualifying edge. -/
def TMC2130.OnStepIn (s : TMC2130) : TMC2130 :=
  if s.m_bEnable then
    let raw : Int := if s.m_bDir then s.m_iCurStep - 1 else s.m_iCurStep + 1
    let stepped : Int :=
      if s.cfg.bHasNoEndStops then raw
      else if raw < 0 then 0
      else if s.m_iMaxPos < raw then s.m_iMaxPos
      else raw
    { s with m_iCurStep := stepped,
             m_fCurPos := TMC2130.StepToPos s.cfg stepped,
             m_bStall := false,
             m_armToken := s.m_armToken + 1 }
  else s

/-- Modelled from the spec: the body of `TMC2130::OnDirIn` is not under
src/ (header line 94 declares it).  Spec 4.2: latches direction for
subsequent step edges. -/
def TMC2130.OnDirIn (s : TMC2130) (v : Bool) : TMC2130 :=
  { s with m_bDir := v }

/-- Modelled from the spec: the body of `TMC2130::OnEnableIn` is not
under src/ (header line 96 declares it).  Spec 4.2: gates step handling;
disabling does not lose the current step count. -/
def TMC2130.OnEnableIn (s : TMC2130) (v : Bool) : TMC2130 :=
  { s with m_bEnable := v }

/-- Modelled from the spec: the body of `TMC2130::OnStandStillTimeout`
is not under src/ (header line 99 declares it).  The timer is re-armed
(token bumped) on every step; a fire carries the token of the arming
that scheduled it and is honoured only when no re-arming happened since
(spec 5: only the latest arming is honoured).  An honoured fire sets
the stall bit and, per the configured stall-detection mode
(`GCONF.diag0_stall`, bit 7 of register 0x00), asserts the fault-style
diagnostic output. -/
def TMC2130.OnStandStillTimeout (s : TMC2130) (t : Nat) : TMC2130 :=
  if t = s.m_armToken then
    { s with m_bStall := true,
             m_diagOut := s.m_diagOut || (s.m_regs.getD 0 0).testBit 7 }
  else s

/-- The decoded input view of a 40-bit command frame, translated from
the `bitsIn` layout of `tmc2130_cmd_t` (header lines 116-120): 32 bits
of data, then a 7-bit register address, then a 1-bit read/write flag in
the most significant bit. -/
structure CmdBitsIn where
  RW : Nat
  address : Nat
  data : Nat
deriving DecidableEq

/-- Decode a 40-bit command value into the `bitsIn` fields: bit 39 is
the read/write flag, bits 32-38 the address, bits 0-31 the data. -/
def TMC2130.decodeCmd (v : Nat) : CmdBitsIn :=
  { RW := v / 2 ^ 39 % 2, address := v / 2 ^ 32 % 2 ^ 7, data := v % 2 ^ 32 }

/-- Modelled from the spec: the per-address write-mask/read-only policy
of `TMC2130::ProcessCommand` is not under src/.  Spec 3 and 7: writes to
read-only status addresses are ignored; per the register layout of the
header, `DRV_STATUS` (0x6F) is the read-only status register. -/
def TMC2130.readOnlyReg (a : Nat) : Bool :=
  a == 0x6F

/-- The status byte of an output frame, per the `bitsOut` layout of
`tmc2130_cmd_t` (header lines 121-128): bit 32 `reset_flag`, bit 33
`driver_error` (both sourced from the `GSTAT` register word at address
0x01), bit 34 `sg2` and bit 35 `standstill` (both sourced from the
stall condition).  Modelled from the spec: the reply is constructed
from the current status bits. -/
def TMC2130.statusBits (s : TMC2130) : Nat :=
  s.m_regs.getD 1 0 % 2 + s.m_regs.getD 1 0 / 2 % 2 * 2 +
    (if s.m_bStall then 4 + 8 else 0)

/-- Modelled from the spec: the body of `TMC2130::CreateReply` is not
under src/ (header line 104 declares it).  Spec 4.2: on a read, a reply
frame is constructed from the current status bits plus the addressed
register data, queued to be shifted out on the next transaction. -/
def TMC2130.CreateReply (s : TMC2130) (a : Nat) : TMC2130 :=
  { s with m_cmdOut := TMC2130.statusBits s * 2 ^ 32 + s.m_regs.getD a 0 }

/-- Modelled from the spec: the body of `TMC2130::ProcessCommand` is
not under src/ (header line 103 declares it).  Spec 4.2 (Committing):
the accumulated command is decoded into a read/write flag, a 7-bit
address and 32 bits of data; a write updates the addressed register
word subject to the read-only policy, a read queues a reply frame. -/
def TMC2130.ProcessCommand (s : TMC2130) : TMC2130 :=
  let c := TMC2130.decodeCmd s.m_cmdIn
  if c.RW = 1 then
    if TMC2130.readOnlyReg c.address then s
    else { s with m_regs := s.m_regs.set c.address c.data }
  else
    TMC2130.CreateReply s c.address

/-- Modelled from the spec: the body of `TMC2130::OnSPIIn` is not under
src/ (header line 90 declares it).  Spec 4.2 (Receiving): while
chip-select is asserted, each incoming byte is shifted into the 5-byte
command buffer, most significant byte first; the buffer is a 40-bit
field, hence the truncation. -/
def TMC2130.OnSPIIn (s : TMC2130) (b : Nat) : TMC2130 :=
  if s.m_csel then
    { s with m_cmdIn := (s.m_cmdIn * 2 ^ 8 + b % 2 ^ 8) % 2 ^ 40,
             m_cmdCount := s.m_cmdCount + 1 }
  else s

/-- Modelled from the spec: the body of `TMC2130::OnCSELIn` is not
under src/ (header line 91 declares it).  Spec 4.2: assertion starts a
transaction (empty buffer); on de-assertion with a full 5-byte buffer
the accumulated command is committed via `ProcessCommand`; spec 7: an
incomplete frame is dropped silently, the transaction discarded. -/
def TMC2130.OnCSELIn (s : TMC2130) (v : Bool) : TMC2130 :=
  if v then
    { s with m_csel := true, m_cmdIn := 0, m_cmdCount := 0 }
  else if s.m_cmdCount = 5 then
    TMC2130.ProcessCommand { s with m_csel := false }
  else
    { s with m_csel := false }

/-- The scriptable action ids, translated from the `Actions` enum of
the header (lines 82-87). -/
inductive Actions where
  | ActToggleStall
  | ActSetDiag
  | ActResetDiag
deriving DecidableEq

/-- Modelled from the spec: the body of `TMC2130::ProcessAction` is not
under src/ (header line 79 declares it).  Spec 4.2: the scriptable
actions are externally triggered state overrides; `ActToggleStall`
toggles the stall condition, `ActSetDiag` forces the diagnostic output
high, `ActResetDiag` forces it low. -/
def TMC2130.ProcessAction (s : TMC2130) (a : Actions) : TMC2130 :=
  match a with
  | .ActToggleStall => { s with m_bStall := !s.m_bStall }
  | .ActSetDiag => { s with m_diagOut := true }
  | .ActResetDiag => { s with m_diagOut := false }

/-- One input event delivered to the TMC2130 by the host signal bus:
a qualifying step edge, a direction latch, an enable change, a
chip-select change, an SPI byte transfer, or a standstill-timer fire
carrying the token of the arming that scheduled it. -/
inductive Ev where
  | stepEdge
  | dirIn (v : Bool)
  | enableIn (v : Bool)
  | cselIn (v : Bool)
  | spiByte (b : Nat)
  | standstillFire (t : Nat)
deriving DecidableEq

/-- Dispatch one event to its handler. -/
def TMC2130.handle (s : TMC2130) (e : Ev) : TMC2130 :=
  match e with
  | .stepEdge => s.OnStepIn
  | .dirIn v => s.OnDirIn v
  | .enableIn v => s.OnEnableIn v
  | .cselIn v => s.OnCSELIn v
  | .spiByte b => s.OnSPIIn b
  | .standstillFire t => s.OnStandStillTimeout t

/-- Run a sequence of events in delivery order (spec 5: signals of one
transaction are delivered in strict send order). -/
def TMC2130.run (s : TMC2130) (evs : List Ev) : TMC2130 :=
  evs.foldl TMC2130.handle s

/-- The ADC_Buttons peripheral state, from
src/parts/components/ADC_Buttons.h (line 45): the currently pushed
button id, a uint8_t. -/
structure ADC_Buttons where
  m_uiCurBtn : Nat
deriving DecidableEq

/-- Modelled from the spec: the body of `ADC_Buttons::Push` is not
under src/ (header line 40 declares it: 1 = left, 2 = middle,
3 = right, 0 = none).  Spec 4.1: sets the current selector state to the
given id; the argument is a uint8_t, hence the truncation. -/
def ADC_Buttons.Push (s : ADC_Buttons) (b : Nat) : ADC_Buttons :=
  { s with m_uiCurBtn := b % 2 ^ 8 }

/-- Modelled from the spec: the quantized analog sample per button is
not under src/.  Spec 4.1: a distinct value per button, with none
mapping to full-scale; the concrete millivolt levels model a
voltage-divider ladder. -/
def ADC_Buttons.buttonSample (b : Nat) : Nat :=
  match b with
  | 1 => 340
  | 2 => 1960
  | 3 => 1100
  | _ => 5000

/-- Modelled from the spec: the body of `ADC_Buttons::OnADCRead` is not
under src/ (header line 43 declares it).  Spec 4.1: computes the
quantized analog value corresponding to the current button state and
additionally emits the raw button id on the digital-state output
signal; the pair is (analog sample, digital output). -/
def ADC_Buttons.OnADCRead (s : ADC_Buttons) : Nat × Nat :=
  (ADC_Buttons.buttonSample s.m_uiCurBtn, s.m_uiCurBtn)

/-! Basic unfolding lemmas for event runs. -/

theorem TMC2130.run_nil (s : TMC2130) : s.run [] = s := rfl

theorem TMC2130.run_cons (s : TMC2130) (e : Ev) (evs : List Ev) :
    s.run (e :: evs) = (s.handle e).run evs := rfl

theorem TMC2130.run_append (s : TMC2130) (l₁ l₂ : List Ev) :
    s.run (l₁ ++ l₂) = (s.run l₁).run l₂ := by
  simp [TMC2130.run]

/-- No bus event changes the stored configuration (only `SetConfig`
does). -/
theorem TMC2130.handle_cfg (s : TMC2130) (e : Ev) : (s.handle e).cfg = s.cfg := by
  cases e <;>
    simp only [TMC2130.handle, TMC2130.OnStepIn, TMC2130.OnDirIn, TMC2130.OnEnableIn,
      TMC2130.OnCSELIn, TMC2130.OnSPIIn, TMC2130.OnStandStillTimeout,
      TMC2130.ProcessCommand, TMC2130.CreateReply] <;>
    (repeat' split) <;> rfl

theorem TMC2130.run_cfg (evs : List Ev) : ∀ s : TMC2130, (s.run evs).cfg = s.cfg := by
  induction evs with
  | nil => intro s; rfl
  | cons e evs ih =>
    intro s
    rw [TMC2130.run_cons, ih, TMC2130.handle_cfg]

/-- No bus event changes the travel bound (only `SetConfig` does). -/
theorem TMC2130.handle_maxPos (s : TMC2130) (e : Ev) :
    (s.handle e).m_iMaxPos = s.m_iMaxPos := by
  cases e <;>
    simp only [TMC2130.handle, TMC2130.OnStepIn, TMC2130.OnDirIn, TMC2130.OnEnableIn,
      TMC2130.OnCSELIn, TMC2130.OnSPIIn, TMC2130.OnStandStillTimeout,
      TMC2130.ProcessCommand, TMC2130.CreateReply] <;>
    (repeat' split) <;> rfl

theorem TMC2130.run_maxPos (evs : List Ev) : ∀ s : TMC2130,
    (s.run evs).m_iMaxPos = s.m_iMaxPos := by
  induction evs with
  | nil => intro s; rfl
  | cons e evs ih =>
    intro s
    rw [TMC2130.run_cons, ih, TMC2130.handle_maxPos]

/-- Every handler maintains the consistency of the derived position
with the step count: if `m_fCurPos = StepToPos cfg m_iCurStep` holds
before an event, it holds after (only `OnStepIn` touches either). -/
theorem TMC2130.handle_pos_consistent (s : TMC2130) (e : Ev)
    (h : s.m_fCurPos = TMC2130.StepToPos s.cfg s.m_iCurStep) :
    (s.handle e).m_fCurPos = TMC2130.StepToPos (s.handle e).cfg (s.handle e).m_iCurStep := by
  cases e <;>
    simp only [TMC2130.handle, TMC2130.OnStepIn, TMC2130.OnDirIn, TMC2130.OnEnableIn,
      TMC2130.OnCSELIn, TMC2130.OnSPIIn, TMC2130.OnStandStillTimeout,
      TMC2130.ProcessCommand, TMC2130.CreateReply] <;>
    (repeat' split) <;> simpa using h

theorem TMC2130.run_pos_consistent (evs : List Ev) : ∀ s : TMC2130,
    s.m_fCurPos = TMC2130.StepToPos s.cfg s.m_iCurStep →
    (s.run evs).m_fCurPos = TMC2130.StepToPos (s.run evs).cfg (s.run evs).m_iCurStep := by
  induction evs with
  | nil => intro s h; exact h
  | cons e evs ih =>
    intro s h
    rw [TMC2130.run_cons]
    exact ih _ (TMC2130.handle_pos_consistent s e h)

/-- Closed form of a burst of qualifying step edges on a free-running
axis (end-stops absent): the count moves by one per edge in the latched
direction. -/
theorem TMC2130.run_replicate_step_free (n : Nat) : ∀ s : TMC2130,
    s.m_bEnable = true → s.cfg.bHasNoEndStops = true →
    (s.run (List.replicate n .stepEdge)).m_iCurStep =
      s.m_iCurStep + (if s.m_bDir then -(n : Int) else (n : Int)) := by
  induction n with
  | zero => intro s _ _; simp [TMC2130.run_nil]
  | succ n ih =>
    intro s hE hF
    rw [List.replicate_succ, TMC2130.run_cons]
    have hstep : s.handle .stepEdge =
        { s with m_iCurStep := if s.m_bDir then s.m_iCurStep - 1 else s.m_iCurStep + 1,
                 m_fCurPos := TMC2130.StepToPos s.cfg
                   (if s.m_bDir then s.m_iCurStep - 1 else s.m_iCurStep + 1),
                 m_bStall := false,
                 m_armToken := s.m_armToken + 1 } := by
      simp [TMC2130.handle, TMC2130.OnStepIn, hE, hF]
    have h1 : (s.handle .stepEdge).m_bEnable = true := by rw [hstep]; exact hE
    have h2 : (s.handle .stepEdge).cfg.bHasNoEndStops = true := by rw [hstep]; exact hF
    have h3 : (s.handle .stepEdge).m_bDir = s.m_bDir := by rw [hstep]
    have h4 : (s.handle .stepEdge).m_iCurStep =
        if s.m_bDir then s.m_iCurStep - 1 else s.m_iCurStep + 1 := by rw [hstep]
    rw [ih _ h1 h2, h3, h4]
    cases hd : s.m_bDir <;> simp [hd] <;> push_cast <;> ring


/-- Closed form of a burst of positive-direction step edges with
end-stops active: the count saturates at the travel bound. -/
theorem TMC2130.run_replicate_step_clamped (n : Nat) : ∀ s : TMC2130,
    s.m_bEnable = true → s.cfg.bHasNoEndStops = false → s.m_bDir = false →
    0 ≤ s.m_iCurStep → s.m_iCurStep ≤ s.m_iMaxPos →
    (s.run (List.replicate n .stepEdge)).m_iCurStep =
      min (s.m_iCurStep + (n : Int)) s.m_iMaxPos := by
  induction n with
  | zero => intro s _ _ _ h0 h1; simp [TMC2130.run_nil]; omega
  | succ n ih =>
    intro s hE hF hd h0 h1
    rw [List.replicate_succ, TMC2130.run_cons]
    have hraw : ¬ (s.m_iCurStep + 1 < 0) := by omega
    have hstep : s.handle .stepEdge =
        { s with m_iCurStep :=
                   if s.m_iMaxPos < s.m_iCurStep + 1 then s.m_iMaxPos
                   else s.m_iCurStep + 1,
                 m_fCurPos := TMC2130.StepToPos s.cfg
                   (if s.m_iMaxPos < s.m_iCurStep + 1 then s.m_iMaxPos
                    else s.m_iCurStep + 1),
                 m_bStall := false,
                 m_armToken := s.m_armToken + 1 } := by
      simp [TMC2130.handle, TMC2130.OnStepIn, hE, hF, hd, hraw]
    have hA : (s.handle .stepEdge).m_bEnable = true := by rw [hstep]; exact hE
    have hB : (s.handle .stepEdge).cfg.bHasNoEndStops = false := by rw [hstep]; exact hF
    have hC : (s.handle .stepEdge).m_bDir = false := by rw [hstep]; exact hd
    have hD : (s.handle .stepEdge).m_iCurStep =
        if s.m_iMaxPos < s.m_iCurStep + 1 then s.m_iMaxPos
        else s.m_iCurStep + 1 := by rw [hstep]
    have hM : (s.handle .stepEdge).m_iMaxPos = s.m_iMaxPos :=
      TMC2130.handle_maxPos s .stepEdge
    have h0a : 0 ≤ (s.handle .stepEdge).m_iCurStep := by rw [hD]; split <;> omega
    have h1a : (s.handle .stepEdge).m_iCurStep ≤ (s.handle .stepEdge).m_iMaxPos := by
      rw [hD, hM]; split <;> omega
    rw [ih _ hA hB hC h0a h1a, hD, hM]
    split <;> push_cast <;> omega

/-- One event keeps the step count inside `[0, maxPos]` when end-stops
are active. -/
theorem TMC2130.handle_curStep_bounds (s : TMC2130) (e : Ev)
    (hF : s.cfg.bHasNoEndStops = false)
    (h0 : 0 ≤ s.m_iCurStep) (h1 : s.m_iCurStep ≤ s.m_iMaxPos) :
    0 ≤ (s.handle e).m_iCurStep ∧ (s.handle e).m_iCurStep ≤ (s.handle e).m_iMaxPos := by
  cases e <;>
    simp only [TMC2130.handle, TMC2130.OnStepIn, TMC2130.OnDirIn, TMC2130.OnEnableIn,
      TMC2130.OnCSELIn, TMC2130.OnSPIIn, TMC2130.OnStandStillTimeout,
      TMC2130.ProcessCommand, TMC2130.CreateReply, hF] <;>
    (repeat' split) <;>
    first
      | omega
      | (dsimp only; omega)
      | simp_all

/-- With end-stops active, no event sequence takes the step count out
of `[0, maxPos]`. -/
theorem TMC2130.run_curStep_bounds (evs : List Ev) : ∀ s : TMC2130,
    s.cfg.bHasNoEndStops = false →
    0 ≤ s.m_iCurStep → s.m_iCurStep ≤ s.m_iMaxPos →
    0 ≤ (s.run evs).m_iCurStep ∧ (s.run evs).m_iCurStep ≤ (s.run evs).m_iMaxPos := by
  induction evs with
  | nil => intro s _ h0 h1; exact ⟨h0, h1⟩
  | cons e evs ih =>
    intro s hF h0 h1
    rw [TMC2130.run_cons]
    have hb := TMC2130.handle_curStep_bounds s e hF h0 h1
    have hcfg : (s.handle e).cfg.bHasNoEndStops = false := by
      rw [TMC2130.handle_cfg]; exact hF
    exact ih _ hcfg hb.1 hb.2

/-- The spec 8 end-to-end axis (default configuration applied by
`SetConfig`): after `n` positive step edges the count is
`min (1000 + n) 20000` and the position tracks it. -/
theorem TMC2130.scenario_run (n : Nat) :
    ((TMC2130.construct.SetConfig TMC2130_cfg_t.default).run
        (List.replicate n .stepEdge)).m_iCurStep = min (1000 + (n : Int)) 20000 ∧
    ((TMC2130.construct.SetConfig TMC2130_cfg_t.default).run
        (List.replicate n .stepEdge)).m_fCurPos =
      TMC2130.StepToPos TMC2130_cfg_t.default (min (1000 + (n : Int)) 20000) := by
  have hcount := TMC2130.run_replicate_step_clamped n
    (TMC2130.construct.SetConfig TMC2130_cfg_t.default)
    (by decide) (by decide) (by decide) (by decide) (by decide)
  have hcur : (TMC2130.construct.SetConfig TMC2130_cfg_t.default).m_iCurStep = 1000 := by decide
  have hmax : (TMC2130.construct.SetConfig TMC2130_cfg_t.default).m_iMaxPos = 20000 := by decide
  rw [hcur, hmax] at hcount
  refine ⟨hcount, ?_⟩
  have hpos := TMC2130.run_pos_consistent (List.replicate n .stepEdge)
    (TMC2130.construct.SetConfig TMC2130_cfg_t.default) rfl
  rw [TMC2130.run_cfg, hcount] at hpos
  exact hpos

/-- C1 (amended): for every sequence of qualifying step edges delivered
to `OnStepIn` with a fixed latched direction and the enable flag true,
PROVIDED END-STOPS ARE DISABLED (free-running axis), the final step
count equals the initial step count plus (latched direction false) or
minus (latched direction true) the number of edges, and the derived
position equals `StepToPos cfg stepCount`, i.e. `stepCount /
stepsPerMM` with inversion flipping the sign.  The proviso is forced:
with end-stops enabled the count clamps (see the counterexample). -/
theorem claim_C1_amended (s : TMC2130) (n : Nat)
    (hE : s.m_bEnable = true) (hF : s.cfg.bHasNoEndStops = true)
    (hP : s.m_fCurPos = TMC2130.StepToPos s.cfg s.m_iCurStep) :
    (s.run (List.replicate n .stepEdge)).m_iCurStep
        = s.m_iCurStep + (if s.m_bDir then -(n : Int) else (n : Int)) ∧
    (s.run (List.replicate n .stepEdge)).m_fCurPos
        = TMC2130.StepToPos s.cfg ((s.run (List.replicate n .stepEdge)).m_iCurStep) := by
  refine ⟨TMC2130.run_replicate_step_free n s hE hF, ?_⟩
  have h := TMC2130.run_pos_consistent (List.replicate n .stepEdge) s hP
  rwa [TMC2130.run_cfg] at h

/-- C1 witness: a free-running axis (end-stops disabled), enabled, in
positive direction, gains exactly 7 steps from 7 edges. -/
theorem claim_C1_witness :
    (TMC2130.run { TMC2130.construct with cfg := ⟨false, 100, 200, 10, true⟩ }
        (List.replicate 7 .stepEdge)).m_iCurStep
      = ({ TMC2130.construct with cfg := ⟨false, 100, 200, 10, true⟩ } :
          TMC2130).m_iCurStep + 7 := by
  have h := claim_C1_amended
    { TMC2130.construct with cfg := ⟨false, 100, 200, 10, true⟩ } 7
    (by decide) (by decide)
    (by simp [TMC2130.construct, TMC2130.StepToPos])
  simpa [TMC2130.construct] using h.1

/-- C1 counterexample: the claim as stated (final count = initial count
plus or minus the number of edges, for EVERY configuration) fails on an
axis with end-stops enabled: with stepsPerMM = 1, maxMM = 2, startPos =
0, three positive edges from step 0 clamp at step 2, which is neither
0 + 3 nor 0 - 3. -/
theorem claim_C1_counterexample :
    ((TMC2130.construct.SetConfig ⟨false, 1, 2, 0, false⟩).run
        (List.replicate 3 .stepEdge)).m_iCurStep
      ≠ (TMC2130.construct.SetConfig ⟨false, 1, 2, 0, false⟩).m_iCurStep + 3 ∧
    ((TMC2130.construct.SetConfig ⟨false, 1, 2, 0, false⟩).run
        (List.replicate 3 .stepEdge)).m_iCurStep
      ≠ (TMC2130.construct.SetConfig ⟨false, 1, 2, 0, false⟩).m_iCurStep - 3 := by
  decide

/-- C3: with end-stops enabled the step count never leaves
`[0, maxSteps]` over any event sequence; clamping is idempotent at
either boundary (an extra edge at the bound leaves the count there);
and the spec 8 scenario holds: the default axis (stepsPerMM = 100,
maxMM = 200) after 50000 positive edges is clamped at step 20000,
position 200.0 mm. -/
theorem claim_C3 (s : TMC2130) (evs : List Ev)
    (hF : s.cfg.bHasNoEndStops = false)
    (h0 : 0 ≤ s.m_iCurStep) (h1 : s.m_iCurStep ≤ s.m_iMaxPos) :
    (0 ≤ (s.run evs).m_iCurStep ∧ (s.run evs).m_iCurStep ≤ s.m_iMaxPos) ∧
    (∀ u : TMC2130, u.cfg.bHasNoEndStops = false → u.m_bEnable = true →
      0 ≤ u.m_iMaxPos →
      ((u.m_bDir = false → u.m_iCurStep = u.m_iMaxPos →
          u.OnStepIn.m_iCurStep = u.m_iMaxPos) ∧
       (u.m_bDir = true → u.m_iCurStep = 0 →
          u.OnStepIn.m_iCurStep = 0))) ∧
    (((TMC2130.construct.SetConfig TMC2130_cfg_t.default).run
        (List.replicate 50000 .stepEdge)).m_iCurStep = 20000 ∧
     ((TMC2130.construct.SetConfig TMC2130_cfg_t.default).run
        (List.replicate 50000 .stepEdge)).m_fCurPos = 200) := by
  refine ⟨?_, ?_, ?_⟩
  · have h := TMC2130.run_curStep_bounds evs s hF h0 h1
    rwa [TMC2130.run_maxPos] at h
  · intro u huF huE huM
    constructor
    · intro hud hub
      simp [TMC2130.OnStepIn, huE, huF, hud, hub]
      try ((repeat' split) <;> omega)
    · intro hud hub
      simp [TMC2130.OnStepIn, huE, huF, hud, hub]
      try ((repeat' split) <;> omega)
  · have h := TMC2130.scenario_run 50000
    have hmin : min ((1000 : Int) + (50000 : Nat)) 20000 = 20000 := by norm_num
    rw [hmin] at h
    refine ⟨h.1, ?_⟩
    rw [h.2]
    norm_num [TMC2130.StepToPos, TMC2130_cfg_t.default]

/-- C3 witness: the freshly constructed state satisfies the hypotheses
(end-stops enabled, count 0 within `[0, 0]`), and one step edge keeps
the count within bounds. -/
theorem claim_C3_witness :
    0 ≤ (TMC2130.construct.run [.stepEdge]).m_iCurStep ∧
    (TMC2130.construct.run [.stepEdge]).m_iCurStep ≤ TMC2130.construct.m_iMaxPos :=
  (claim_C3 TMC2130.construct [.stepEdge] (by decide) (by decide) (by decide)).1

/-- C7: the spec 8 end-to-end scenario: configure via `SetConfig` with
stepsPerMM = 100, maxMM = 200, startPos = 10.0, end-stops enabled
(the default configuration); deliver 500 positive step edges with
enable = true; the start position maps to step 1000, so the final count
is 1500 and the final position exactly 15.0 mm. -/
theorem claim_C7 :
    ((TMC2130.construct.SetConfig TMC2130_cfg_t.default).run
        (List.replicate 500 .stepEdge)).m_iCurStep = 1500 ∧
    ((TMC2130.construct.SetConfig TMC2130_cfg_t.default).run
        (List.replicate 500 .stepEdge)).m_fCurPos = 15 := by
  have h := TMC2130.scenario_run 500
  have hmin : min ((1000 : Int) + (500 : Nat)) 20000 = 1500 := by norm_num
  rw [hmin] at h
  refine ⟨h.1, ?_⟩
  rw [h.2]
  norm_num [TMC2130.StepToPos, TMC2130_cfg_t.default]

/-! SPI transaction machinery. -/

/-- The value accumulated in the 40-bit command buffer after shifting in
a list of bytes, most significant byte first. -/
def spiAccum (a : Nat) (bs : List Nat) : Nat :=
  bs.foldl (fun x b => (x * 2 ^ 8 + b % 2 ^ 8) % 2 ^ 40) a

/-- Chip-select assertion opens a transaction with an empty buffer. -/
theorem TMC2130.csel_assert (s : TMC2130) :
    s.handle (.cselIn true) = { s with m_csel := true, m_cmdIn := 0, m_cmdCount := 0 } := by
  simp [TMC2130.handle, TMC2130.OnCSELIn]

/-- Chip-select de-assertion with a full 5-byte buffer commits the
accumulated command. -/
theorem TMC2130.csel_commit (s : TMC2130) (h : s.m_cmdCount = 5) :
    s.handle (.cselIn false) = TMC2130.ProcessCommand { s with m_csel := false } := by
  simp [TMC2130.handle, TMC2130.OnCSELIn, h]

/-- Chip-select de-assertion without a full buffer discards the
transaction: nothing but the select flag changes. -/
theorem TMC2130.csel_discard (s : TMC2130) (h : s.m_cmdCount ≠ 5) :
    s.handle (.cselIn false) = { s with m_csel := false } := by
  simp [TMC2130.handle, TMC2130.OnCSELIn, h]

/-- Feeding bytes while chip-select is asserted only shifts the command
buffer and bumps the byte count; the register file, the queued reply
and every other field are untouched. -/
theorem TMC2130.run_spiBytes (bs : List Nat) : ∀ s : TMC2130, s.m_csel = true →
    s.run (bs.map Ev.spiByte) =
      { s with m_cmdIn := spiAccum s.m_cmdIn bs,
               m_cmdCount := s.m_cmdCount + bs.length } := by
  induction bs with
  | nil => intro s _; simp [spiAccum, TMC2130.run_nil]
  | cons b bs ih =>
    intro s h
    rw [List.map_cons, TMC2130.run_cons]
    have hh : s.handle (.spiByte b) =
        { s with m_cmdIn := (s.m_cmdIn * 2 ^ 8 + b % 2 ^ 8) % 2 ^ 40,
                 m_cmdCount := s.m_cmdCount + 1 } := by
      simp [TMC2130.handle, TMC2130.OnSPIIn, h]
    rw [hh, ih _ (by exact h)]
    simp [spiAccum, TMC2130.mk.injEq]
    omega

/-- The accumulated value of a full 5-byte frame is the big-endian
combination of its bytes. -/
theorem spiAccum_five (b0 b1 b2 b3 b4 : Nat)
    (h0 : b0 < 2 ^ 8) (h1 : b1 < 2 ^ 8) (h2 : b2 < 2 ^ 8)
    (h3 : b3 < 2 ^ 8) (h4 : b4 < 2 ^ 8) :
    spiAccum 0 [b0, b1, b2, b3, b4] =
      b0 * 2 ^ 32 + b1 * 2 ^ 24 + b2 * 2 ^ 16 + b3 * 2 ^ 8 + b4 := by
  simp only [spiAccum, List.foldl]
  omega

/-- Decoding a frame value built from a leading byte and a 32-bit rest
recovers the read/write bit, the 7-bit address and the data. -/
theorem decodeCmd_split (b0 r : Nat) (h0 : b0 < 2 ^ 8) (hr : r < 2 ^ 32) :
    TMC2130.decodeCmd (b0 * 2 ^ 32 + r) = ⟨b0 / 2 ^ 7, b0 % 2 ^ 7, r⟩ := by
  simp only [TMC2130.decodeCmd, CmdBitsIn.mk.injEq]
  refine ⟨?_, ?_, ?_⟩ <;> omega

/-- Committing a frame that decodes to a write on a writable address
updates exactly that register word. -/
theorem TMC2130.ProcessCommand_write (s : TMC2130) (a d : Nat)
    (h : TMC2130.decodeCmd s.m_cmdIn = ⟨1, a, d⟩)
    (hro : TMC2130.readOnlyReg a = false) :
    TMC2130.ProcessCommand s = { s with m_regs := s.m_regs.set a d } := by
  simp [TMC2130.ProcessCommand, h, hro]

/-- Committing a frame that decodes to a write on a read-only address
is a no-op. -/
theorem TMC2130.ProcessCommand_write_readonly (s : TMC2130) (a d : Nat)
    (h : TMC2130.decodeCmd s.m_cmdIn = ⟨1, a, d⟩)
    (hro : TMC2130.readOnlyReg a = true) :
    TMC2130.ProcessCommand s = s := by
  simp [TMC2130.ProcessCommand, h, hro]

/-- Committing a frame that decodes to a read queues a reply. -/
theorem TMC2130.ProcessCommand_read (s : TMC2130) (a d : Nat)
    (h : TMC2130.decodeCmd s.m_cmdIn = ⟨0, a, d⟩) :
    TMC2130.ProcessCommand s = TMC2130.CreateReply s a := by
  simp [TMC2130.ProcessCommand, h]

/-- Setting then reading the same index of the register file returns
the written word. -/
theorem getD_set_eq (l : List Nat) (i v : Nat) (h : i < l.length) :
    (l.set i v).getD i 0 = v := by
  simp [List.getD_eq_getElem?_getD, List.getElem?_set_self h]

/-- The event sequence of one complete SPI write transaction: select,
five bytes (write bit plus 7-bit address, then the 32-bit data most
significant byte first, per the spec 6 wire format), deselect. -/
def writeTx (a d : Nat) : List Ev :=
  [.cselIn true, .spiByte (2 ^ 7 + a), .spiByte (d / 2 ^ 24),
   .spiByte (d / 2 ^ 16 % 2 ^ 8), .spiByte (d / 2 ^ 8 % 2 ^ 8),
   .spiByte (d % 2 ^ 8), .cselIn false]

/-- The event sequence of one complete SPI read transaction addressed
to `a` (read bit clear, zero data). -/
def readTx (a : Nat) : List Ev :=
  [.cselIn true, .spiByte a, .spiByte 0, .spiByte 0, .spiByte 0,
   .spiByte 0, .cselIn false]

/-- Running a complete write transaction commits the decoded write
frame. -/
theorem TMC2130.run_writeTx (s : TMC2130) (a d : Nat)
    (ha : a < 2 ^ 7) (hd : d < 2 ^ 32) :
    s.run (writeTx a d) =
      TMC2130.ProcessCommand
        { s with m_csel := false,
                 m_cmdIn := (2 ^ 7 + a) * 2 ^ 32 + d, m_cmdCount := 5 } := by
  have hsplit : writeTx a d = Ev.cselIn true ::
      (List.map Ev.spiByte
        [2 ^ 7 + a, d / 2 ^ 24, d / 2 ^ 16 % 2 ^ 8, d / 2 ^ 8 % 2 ^ 8, d % 2 ^ 8] ++
       [Ev.cselIn false]) := rfl
  rw [hsplit, TMC2130.run_cons, TMC2130.csel_assert, TMC2130.run_append,
    TMC2130.run_spiBytes _ _ (by exact rfl), TMC2130.run_cons, TMC2130.run_nil,
    TMC2130.csel_commit _ (by exact rfl)]
  have hacc : spiAccum 0
      [2 ^ 7 + a, d / 2 ^ 24, d / 2 ^ 16 % 2 ^ 8, d / 2 ^ 8 % 2 ^ 8, d % 2 ^ 8]
        = (2 ^ 7 + a) * 2 ^ 32 + d := by
    rw [spiAccum_five _ _ _ _ _ (by omega) (by omega) (by omega) (by omega) (by omega)]
    omega
  rw [hacc]
  rfl

/-- Running a complete read transaction commits the decoded read
frame. -/
theorem TMC2130.run_readTx (s : TMC2130) (a : Nat) (ha : a < 2 ^ 7) :
    s.run (readTx a) =
      TMC2130.ProcessCommand
        { s with m_csel := false, m_cmdIn := a * 2 ^ 32, m_cmdCount := 5 } := by
  have hsplit : readTx a = Ev.cselIn true ::
      (List.map Ev.spiByte [a, 0, 0, 0, 0] ++ [Ev.cselIn false]) := rfl
  rw [hsplit, TMC2130.run_cons, TMC2130.csel_assert, TMC2130.run_append,
    TMC2130.run_spiBytes _ _ (by exact rfl), TMC2130.run_cons, TMC2130.run_nil,
    TMC2130.csel_commit _ (by exact rfl)]
  have hacc : spiAccum 0 [a, 0, 0, 0, 0] = a * 2 ^ 32 := by
    rw [spiAccum_five _ _ _ _ _ (by omega) (by omega) (by omega) (by omega) (by omega)]
    omega
  rw [hacc]
  rfl

/-- C2: for every well-formed 5-byte frame with the write bit set
addressed to a writable register (7-bit address, 32-bit data),
committing the frame and then reading back the same address returns
exactly the written data in the queued reply (its low 32 bits); for the
declared read-only status register the register file is left at its
prior value. -/
theorem claim_C2 (s : TMC2130) (a d : Nat)
    (ha : a < 2 ^ 7) (hd : d < 2 ^ 32) (hlen : s.m_regs.length = 128) :
    (TMC2130.readOnlyReg a = false →
      (s.run (writeTx a d)).m_regs.getD a 0 = d ∧
      (s.run (writeTx a d ++ readTx a)).m_cmdOut % 2 ^ 32 = d) ∧
    (TMC2130.readOnlyReg a = true →
      (s.run (writeTx a d)).m_regs = s.m_regs) := by
  have hdec : TMC2130.decodeCmd ((2 ^ 7 + a) * 2 ^ 32 + d) = ⟨1, a, d⟩ := by
    rw [decodeCmd_split _ _ (by omega) hd]
    simp only [CmdBitsIn.mk.injEq]
    refine ⟨by omega, by omega, trivial⟩
  have hrdec : TMC2130.decodeCmd (a * 2 ^ 32) = ⟨0, a, 0⟩ := by
    have : a * 2 ^ 32 = a * 2 ^ 32 + 0 := by omega
    rw [this, decodeCmd_split _ _ (by omega) (by omega)]
    simp only [CmdBitsIn.mk.injEq]
    refine ⟨by omega, by omega, trivial⟩
  constructor
  · intro hro
    have hw : s.run (writeTx a d) =
        { s with m_csel := false, m_cmdIn := (2 ^ 7 + a) * 2 ^ 32 + d,
                 m_cmdCount := 5, m_regs := s.m_regs.set a d } := by
      rw [TMC2130.run_writeTx s a d ha hd,
        TMC2130.ProcessCommand_write _ a d (by exact hdec) hro]
    constructor
    · rw [hw]
      exact getD_set_eq s.m_regs a d (by rw [hlen]; exact ha)
    · rw [TMC2130.run_append, hw,
        TMC2130.run_readTx _ a ha,
        TMC2130.ProcessCommand_read _ a 0 (by exact hrdec)]
      simp only [TMC2130.CreateReply]
      have hgd : ((s.m_regs.set a d).getD a 0) = d :=
        getD_set_eq s.m_regs a d (by rw [hlen]; exact ha)
      rw [hgd]
      omega
  · intro hro
    rw [TMC2130.run_writeTx s a d ha hd,
      TMC2130.ProcessCommand_write_readonly _ a d (by exact hdec) hro]

/-- C2 witness: writing 0xDEADBEEF to the writable CHOPCONF register
(0x6C) of a fresh device and reading it back returns 0xDEADBEEF. -/
theorem claim_C2_witness :
    (TMC2130.construct.run (writeTx 0x6C 0xDEADBEEF)).m_regs.getD 0x6C 0 = 0xDEADBEEF ∧
    (TMC2130.construct.run (writeTx 0x6C 0xDEADBEEF ++ readTx 0x6C)).m_cmdOut % 2 ^ 32
      = 0xDEADBEEF :=
  (claim_C2 TMC2130.construct 0x6C 0xDEADBEEF (by decide) (by decide)
    (by decide)).1 (by decide)

/-- C5: while chip-select is asserted each byte-transfer event only
shifts the byte into the 40-bit buffer MSB-first — the register file
and the queued reply are untouched mid-transaction; after five bytes
the buffer holds the big-endian combination, which decodes as 1
read/write bit, a 7-bit address and 32 bits of data; and the
de-assertion edge is exactly the point where the accumulated frame is
committed via `ProcessCommand`. -/
theorem claim_C5 (s : TMC2130) (b0 b1 b2 b3 b4 : Nat)
    (h0 : b0 < 2 ^ 8) (h1 : b1 < 2 ^ 8) (h2 : b2 < 2 ^ 8)
    (h3 : b3 < 2 ^ 8) (h4 : b4 < 2 ^ 8) :
    ((s.handle (.cselIn true)).run
        (List.map Ev.spiByte [b0, b1, b2, b3, b4])).m_regs = s.m_regs ∧
    ((s.handle (.cselIn true)).run
        (List.map Ev.spiByte [b0, b1, b2, b3, b4])).m_cmdOut = s.m_cmdOut ∧
    ((s.handle (.cselIn true)).run
        (List.map Ev.spiByte [b0, b1, b2, b3, b4])).m_cmdIn
      = b0 * 2 ^ 32 + b1 * 2 ^ 24 + b2 * 2 ^ 16 + b3 * 2 ^ 8 + b4 ∧
    TMC2130.decodeCmd (((s.handle (.cselIn true)).run
        (List.map Ev.spiByte [b0, b1, b2, b3, b4])).m_cmdIn)
      = ⟨b0 / 2 ^ 7, b0 % 2 ^ 7, b1 * 2 ^ 24 + b2 * 2 ^ 16 + b3 * 2 ^ 8 + b4⟩ ∧
    ((s.handle (.cselIn true)).run
        (List.map Ev.spiByte [b0, b1, b2, b3, b4])).handle (.cselIn false)
      = TMC2130.ProcessCommand
          { (s.handle (.cselIn true)).run (List.map Ev.spiByte [b0, b1, b2, b3, b4])
              with m_csel := false } := by
  rw [TMC2130.csel_assert, TMC2130.run_spiBytes _ _ (by exact rfl)]
  have hacc : spiAccum 0 [b0, b1, b2, b3, b4]
      = b0 * 2 ^ 32 + b1 * 2 ^ 24 + b2 * 2 ^ 16 + b3 * 2 ^ 8 + b4 :=
    spiAccum_five b0 b1 b2 b3 b4 h0 h1 h2 h3 h4
  refine ⟨rfl, rfl, ?_, ?_, ?_⟩
  · exact hacc
  · show TMC2130.decodeCmd (spiAccum 0 [b0, b1, b2, b3, b4]) = _
    rw [hacc]
    have : b0 * 2 ^ 32 + b1 * 2 ^ 24 + b2 * 2 ^ 16 + b3 * 2 ^ 8 + b4
        = b0 * 2 ^ 32 + (b1 * 2 ^ 24 + b2 * 2 ^ 16 + b3 * 2 ^ 8 + b4) := by omega
    rw [this, decodeCmd_split _ _ h0 (by omega)]
  · exact TMC2130.csel_commit _ (by exact rfl)

/-- C5 witness: feeding the frame 0xEC DE AD BE EF of a write to
CHOPCONF into a fresh selected device decodes to write bit 1, address
0x6C, data 0xDEADBEEF. -/
theorem claim_C5_witness :
    TMC2130.decodeCmd (((TMC2130.construct.handle (.cselIn true)).run
        (List.map Ev.spiByte [0xEC, 0xDE, 0xAD, 0xBE, 0xEF])).m_cmdIn)
      = ⟨1, 0x6C, 0xDEADBEEF⟩ := by
  have h := claim_C5 TMC2130.construct 0xEC 0xDE 0xAD 0xBE 0xEF
    (by decide) (by decide) (by decide) (by decide) (by decide)
  rw [h.2.2.2.1]
  decide

/-- C6: a transaction aborted before 5 bytes were received (here: any
list of fewer than five bytes between select and deselect) leaves both
the register file and the queued reply exactly as they were before the
transaction — the partial frame is discarded silently. -/
theorem claim_C6 (s : TMC2130) (bs : List Nat) (hlen : bs.length < 5) :
    ((s.handle (.cselIn true)).run (bs.map Ev.spiByte ++ [.cselIn false])).m_regs
      = s.m_regs ∧
    ((s.handle (.cselIn true)).run (bs.map Ev.spiByte ++ [.cselIn false])).m_cmdOut
      = s.m_cmdOut := by
  rw [TMC2130.csel_assert, TMC2130.run_append,
    TMC2130.run_spiBytes _ _ (by exact rfl), TMC2130.run_cons, TMC2130.run_nil,
    TMC2130.csel_discard _ (by show 0 + bs.length ≠ 5; omega)]
  exact ⟨rfl, rfl⟩

/-- C6 witness: a two-byte aborted transaction on a fresh device leaves
the register file and the reply untouched. -/
theorem claim_C6_witness :
    ((TMC2130.construct.handle (.cselIn true)).run
        (List.map Ev.spiByte [0xEC, 0xDE] ++ [.cselIn false])).m_regs
      = TMC2130.construct.m_regs ∧
    ((TMC2130.construct.handle (.cselIn true)).run
        (List.map Ev.spiByte [0xEC, 0xDE] ++ [.cselIn false])).m_cmdOut
      = TMC2130.construct.m_cmdOut :=
  claim_C6 TMC2130.construct [0xEC, 0xDE] (by decide)

/-- Once set, the stall bit survives every event except a qualifying
step edge (and the explicit scripted reset, which is not a bus
event). -/
theorem TMC2130.run_stall_persists (evs : List Ev) : ∀ s : TMC2130,
    Ev.stepEdge ∉ evs → s.m_bStall = true → (s.run evs).m_bStall = true := by
  induction evs with
  | nil => intro s _ h; exact h
  | cons e evs ih =>
    intro s hmem h
    rw [TMC2130.run_cons]
    refine ih _ (fun hc => hmem (List.mem_cons_of_mem _ hc)) ?_
    have hne : e ≠ Ev.stepEdge := fun hc => hmem (hc ▸ List.mem_cons_self _ _)
    cases e with
    | stepEdge => exact absurd rfl hne
    | dirIn v => exact h
    | enableIn v => exact h
    | spiByte b =>
      simp only [TMC2130.handle, TMC2130.OnSPIIn]
      split <;> exact h
    | cselIn v =>
      simp only [TMC2130.handle, TMC2130.OnCSELIn, TMC2130.ProcessCommand,
        TMC2130.CreateReply]
      (repeat' split) <;> exact h
    | standstillFire t =>
      simp only [TMC2130.handle, TMC2130.OnStandStillTimeout]
      split
      · rfl
      · exact h

/-- C4: temporal behaviour of the standstill detector.  A pending
timer fire armed with a stale token (any token other than the current
one) is a no-op; a fire with the current token sets the stall bit;
firing again leaves the state unchanged (the bit becomes set exactly
once); the bit then persists across any events that contain no step
edge; and a qualifying step edge clears the bit and re-arms the timer
with a fresh token, so the previously pending fire is cancelled (it
becomes stale on the post-step state). -/
theorem claim_C4 (s : TMC2130) (t : Nat) :
    (t ≠ s.m_armToken → s.OnStandStillTimeout t = s) ∧
    ((s.OnStandStillTimeout s.m_armToken).m_bStall = true) ∧
    ((s.OnStandStillTimeout s.m_armToken).OnStandStillTimeout s.m_armToken
      = s.OnStandStillTimeout s.m_armToken) ∧
    (∀ evs : List Ev, Ev.stepEdge ∉ evs →
      (((s.OnStandStillTimeout s.m_armToken).run evs)).m_bStall = true) ∧
    (s.m_bEnable = true →
      (s.OnStepIn.m_bStall = false ∧
       s.OnStepIn.m_armToken = s.m_armToken + 1 ∧
       s.OnStepIn.OnStandStillTimeout s.m_armToken = s.OnStepIn)) := by
  refine ⟨?_, ?_, ?_, ?_, ?_⟩
  · intro h
    simp [TMC2130.OnStandStillTimeout, h]
  · simp [TMC2130.OnStandStillTimeout]
  · simp [TMC2130.OnStandStillTimeout, Bool.or_assoc]
  · intro evs hmem
    exact TMC2130.run_stall_persists evs _ hmem
      (by simp [TMC2130.OnStandStillTimeout])
  · intro hE
    have hstep : s.OnStepIn.m_armToken = s.m_armToken + 1 := by
      simp only [TMC2130.OnStepIn, hE, if_true]
    refine ⟨by simp only [TMC2130.OnStepIn, hE, if_true], hstep, ?_⟩
    have hne : s.m_armToken ≠ s.OnStepIn.m_armToken := by omega
    simp [TMC2130.OnStandStillTimeout, hne]

/-- C4 witness: on a fresh device a stale fire (token 5, current token
0) is a no-op. -/
theorem claim_C4_witness :
    TMC2130.construct.OnStandStillTimeout 5 = TMC2130.construct :=
  (claim_C4 TMC2130.construct 5).1 (by decide)

/-- C9 counterexample: `ActToggleStall` is not idempotent — invoking it
twice on a fresh device does not leave the same state as invoking it
once (the stall flag returns to false instead of staying true). -/
theorem claim_C9_counterexample :
    (TMC2130.construct.ProcessAction .ActToggleStall).ProcessAction .ActToggleStall
      ≠ TMC2130.construct.ProcessAction .ActToggleStall := by
  decide

/-- C9 (amended): `ActSetDiag` and `ActResetDiag` are idempotent
(invoking either twice in succession with no intervening events equals
invoking it once), but `ActToggleStall` is an involution — invoking it
twice restores the original state, so it is NOT idempotent. -/
theorem claim_C9_amended (s : TMC2130) :
    ((s.ProcessAction .ActSetDiag).ProcessAction .ActSetDiag
      = s.ProcessAction .ActSetDiag) ∧
    ((s.ProcessAction .ActResetDiag).ProcessAction .ActResetDiag
      = s.ProcessAction .ActResetDiag) ∧
    ((s.ProcessAction .ActToggleStall).ProcessAction .ActToggleStall = s) := by
  refine ⟨rfl, rfl, ?_⟩
  simp [TMC2130.ProcessAction]

/-- C10 counterexample: on a freshly constructed (never configured)
device, a step edge in the default (positive) direction does NOT move
the step count — the claim that pre-configuration step edges are
honored under the defaults fails, because `m_iMaxPos` is initialized to
0 and end-stops are present, so the count clamps at 0. -/
theorem claim_C10_counterexample :
    ¬ (TMC2130.construct.OnStepIn.m_iCurStep = TMC2130.construct.m_iCurStep + 1 ∨
       TMC2130.construct.OnStepIn.m_iCurStep = TMC2130.construct.m_iCurStep - 1) := by
  decide

/-- C10 (amended): a freshly constructed TMC2130 has enable = true,
step count 0, direction 0 (false), stall flag false, and the default
configuration (non-inverted, stepsPerMM = 100, maxMM = 200, startPos =
10.0, end-stops present) — but step edges delivered before any
explicit configuration, while processed (the standstill timer is
re-armed, so the edge is not ignored), are clamped to step 0, because
the travel bound `m_iMaxPos` is initialized to 0 and is only derived
from the configuration when `SetConfig` runs. -/
theorem claim_C10_amended :
    TMC2130.construct.m_bEnable = true ∧
    TMC2130.construct.m_iCurStep = 0 ∧
    TMC2130.construct.m_bDir = false ∧
    TMC2130.construct.m_bStall = false ∧
    TMC2130.construct.cfg =
      ⟨false, 100, 200, 10, false⟩ ∧
    TMC2130.construct.m_iMaxPos = 0 ∧
    TMC2130.construct.OnStepIn.m_armToken = TMC2130.construct.m_armToken + 1 ∧
    TMC2130.construct.OnStepIn.m_iCurStep = 0 := by
  decide

/-- C8: for every button id in the valid set {0, 1, 2, 3}, `Push`
followed by an ADC read returns the sample for that button, the map
from valid button id to sample value is injective (the sample uniquely
identifies the button), `Push 0` always yields the designated
no-button (full-scale) sample, and the read additionally emits the raw
button id on the digital output. -/
theorem claim_C8 (s : ADC_Buttons) (b b1 b2 : Nat)
    (hb : b ≤ 3) (hb1 : b1 ≤ 3) (hb2 : b2 ≤ 3) :
    ((s.Push b).OnADCRead).1 = ADC_Buttons.buttonSample b ∧
    ((s.Push b).OnADCRead).2 = b ∧
    (ADC_Buttons.buttonSample b1 = ADC_Buttons.buttonSample b2 → b1 = b2) ∧
    ((s.Push 0).OnADCRead).1 = 5000 := by
  have hmod : b % 256 = b := Nat.mod_eq_of_lt (by omega)
  refine ⟨?_, ?_, ?_, rfl⟩
  · simp [ADC_Buttons.Push, ADC_Buttons.OnADCRead, hmod]
  · simp only [ADC_Buttons.Push, ADC_Buttons.OnADCRead]
    omega
  · intro heq
    have e1 : b1 = 0 ∨ b1 = 1 ∨ b1 = 2 ∨ b1 = 3 := by omega
    have e2 : b2 = 0 ∨ b2 = 1 ∨ b2 = 2 ∨ b2 = 3 := by omega
    rcases e1 with h | h | h | h <;> rcases e2 with g | g | g | g <;>
      subst h <;> subst g <;> first | rfl | (exfalso; revert heq; decide)

/-- C8 witness: on a device with button 2 pushed the read returns the
middle-button sample 1960 and emits id 2 digitally; distinct valid ids
1 and 3 have distinct samples. -/
theorem claim_C8_witness :
    ((ADC_Buttons.Push ⟨0⟩ 2).OnADCRead).1 = ADC_Buttons.buttonSample 2 ∧
    ((ADC_Buttons.Push ⟨0⟩ 2).OnADCRead).2 = 2 ∧
    (ADC_Buttons.buttonSample 1 = ADC_Buttons.buttonSample 3 → 1 = 3) ∧
    ((ADC_Buttons.Push ⟨0⟩ 0).OnADCRead).1 = 5000 :=
  claim_C8 ⟨0⟩ 2 1 3 (by decide) (by decide) (by decide)

end MK404
